import Mathlib

/-!
Verification of the schedule overlap-detection, template-derivation and
validation logic of the pantallita-events repository, as a shallow embedding.

The embedding follows `src/pantallita_manager.py` (and the structurally
identical validators in `src/event_manager.py`):

* schedule records are dictionaries with the nine string fields produced by
  `ScheduleManager._load_schedule_file`, modelled by the structure `SRec`;
* the schedule store is the mapping from calendar keys to record lists,
  modelled as an association list;
* Python `int(...)` / `str(...)` on decimal integers are modelled by
  `parsePyInt` / `pyIntStr` (optional sign plus decimal digits); Python
  floor division and modulo by a positive constant are `Int.ediv` /
  `Int.emod`;
* `check_schedule_overlap`, the transformation steps of
  `create_from_template_interactive`, `EventValidator.validate_event` and
  `ScheduleValidator.validate_schedule` are translated function by function.

Validator error messages are abstracted to tags (`EvErr`, `SchedErr`), one
tag per distinct `errors.append` site; the claims only depend on which
errors are produced, not on the message text.
-/

namespace Pantallita

/-! ## Decimal digits: the model of Python `str` and `int` on integers -/

/-- One decimal digit character; only applied to arguments below ten. -/
def digitChar : Nat → Char
  | 0 => '0' | 1 => '1' | 2 => '2' | 3 => '3' | 4 => '4'
  | 5 => '5' | 6 => '6' | 7 => '7' | 8 => '8' | 9 => '9'
  | _ => '0'

def isDigitChar (c : Char) : Bool :=
  decide (48 ≤ c.toNat) && decide (c.toNat ≤ 57)

def charVal (c : Char) : Nat := c.toNat - 48

/-- Fuel-indexed most-significant-first decimal digit expansion. -/
def natDigitsAux : Nat → Nat → List Char
  | 0, _ => []
  | fuel + 1, n =>
    if n < 10 then [digitChar n]
    else natDigitsAux fuel (n / 10) ++ [digitChar (n % 10)]

def natDigits (n : Nat) : List Char := natDigitsAux (n + 1) n

/-- Model of Python `str` on a nonnegative integer. -/
def pyNatStr (n : Nat) : String := String.mk (natDigits n)

/-- Model of Python `str` on an integer. -/
def pyIntStr (i : Int) : String :=
  if i < 0 then String.mk ('-' :: natDigits i.natAbs) else String.mk (natDigits i.toNat)

def digitsVal (l : List Char) : Nat :=
  l.foldl (fun acc c => acc * 10 + charVal c) 0

def parseDigits (l : List Char) : Option Nat :=
  if l.isEmpty then none
  else if l.all isDigitChar then some (digitsVal l) else none

def isSpaceChar (c : Char) : Bool :=
  c == ' ' || c == '\t' || c == '\n' || c == '\r' || c.toNat == 11 || c.toNat == 12

/-- Model of Python `str.strip()`. -/
def pyStrip (s : String) : String :=
  String.mk (((s.toList.dropWhile isSpaceChar).reverse.dropWhile isSpaceChar).reverse)

def parsePyIntL : List Char → Option Int
  | [] => none
  | c :: rest =>
    if c == '-' then (parseDigits rest).map (fun n => -(n : Int))
    else if c == '+' then (parseDigits rest).map (fun n => (n : Int))
    else (parseDigits (c :: rest)).map (fun n => (n : Int))

/-- Model of Python `int(...)` on a string: surrounding whitespace is
ignored, then an optional sign and decimal digits; `none` where Python
raises `ValueError`. (Digit-group underscores are not modelled.) -/
def parsePyInt (s : String) : Option Int :=
  parsePyIntL (pyStrip s).toList

/-- Model of Python `str.zfill(2)`, as applied to decimal representations. -/
def pyZfill2 (s : String) : String :=
  if 2 ≤ s.length then s
  else match s.toList with
    | [] => "00"
    | [c] => if c == '-' || c == '+' then String.mk [c, '0'] else String.mk ['0', c]
    | l => String.mk l

/-! ## Small string utilities mirroring the Python operations used -/

def splitOnCharAux (sep : Char) : List Char → List Char → List (List Char)
  | [], acc => [acc.reverse]
  | c :: t, acc =>
    if c == sep then acc.reverse :: splitOnCharAux sep t []
    else splitOnCharAux sep t (c :: acc)

/-- Model of Python `str.split(sep)` for a one-character separator. -/
def splitOnChar (sep : Char) (s : String) : List String :=
  (splitOnCharAux sep s.toList []).map String.mk

def startsWithL : List Char → List Char → Bool
  | _, [] => true
  | [], _ :: _ => false
  | h :: hs, n :: ns => h == n && startsWithL hs ns

def strContainsL : List Char → List Char → Bool
  | [], needle => needle.isEmpty
  | h :: t, needle => startsWithL (h :: t) needle || strContainsL t needle

/-- Model of the Python substring test `needle in hay`. -/
def strContains (hay needle : String) : Bool := strContainsL hay.toList needle.toList

/-- Model of Python `str.endswith(suf)`. -/
def pyEndsWith (s suf : String) : Bool :=
  startsWithL s.toList.reverse suf.toList.reverse

/-- Model of Python `str.upper()` on the ASCII strings the tool handles. -/
def pyUpper (s : String) : String := String.mk (s.toList.map Char.toUpper)

def insertChar (c : Char) : List Char → List Char
  | [] => [c]
  | x :: xs => if c ≤ x then c :: x :: xs else x :: insertChar c xs

/-- Ascending code-point sort, the order produced by Python `sorted` on a
set of one-character strings. -/
def sortChars : List Char → List Char
  | [] => []
  | x :: xs => insertChar x (sortChars xs)

/-! ## Configuration constants of `pantallita_manager.py` -/

def VALID_DAYS : String := "0123456"

def VALID_COLORS : List String :=
  ["MINT", "BUGAMBILIA", "LILAC", "RED", "GREEN", "BLUE",
   "ORANGE", "YELLOW", "CYAN", "PURPLE", "PINK", "AQUA", "WHITE",
   "BROWN", "BEIGE", "DARK_GRAY", "GRAY", "DIMMEST_WHITE"]

/-- The `DAY_NAMES` table, keyed by the one-character day tokens. -/
def dayName : Char → Option String
  | '0' => some "Mon" | '1' => some "Tue" | '2' => some "Wed" | '3' => some "Thu"
  | '4' => some "Fri" | '5' => some "Sat" | '6' => some "Sun"
  | _ => none

/-- `DAY_NAMES` lookup on a string key, `none` where Python raises `KeyError`. -/
def dayNameS (s : String) : Option String :=
  match s.toList with
  | [c] => dayName c
  | _ => none

/-! ## Schedule records and the schedule store -/

/-- A stored schedule row: the nine string fields built by
`ScheduleManager._load_schedule_file` (every stored record carries all nine
keys; the values are arbitrary strings and may be malformed). -/
structure SRec where
  name : String
  enabled : String
  days : String
  start_hour : String
  start_min : String
  end_hour : String
  end_min : String
  image : String
  progressbar : String
deriving DecidableEq

/-- `manager.schedules`: calendar key to list of records. -/
abbrev Store := List (String × List SRec)

def getRecords (store : Store) (key : String) : Option (List SRec) :=
  (store.find? (fun kv => kv.1 == key)).map (fun kv => kv.2)

/-- A conflict descriptor as built by `check_schedule_overlap`:
Python keys `name`, `start`, `end`, `days`. -/
structure Conflict where
  name : String
  startStr : String
  endStr : String
  days : String
deriving DecidableEq

/-! ## The overlap check (`check_schedule_overlap`) -/

/-- Parse one `"H:MM"`-ish time argument the way
`map(int, start_time.split(':'))` with a two-way unpacking does. -/
def parseTimeStr (s : String) : Option (Int × Int) :=
  match splitOnChar ':' s with
  | [a, b] => (parsePyInt a).bind fun x => (parsePyInt b).map fun y => (x, y)
  | _ => none

/-- The candidate minute-of-day endpoints; `none` when either time string
fails to parse (the code then returns an empty overlap list). -/
def candMinutes (st et : String) : Option (Int × Int) :=
  (parseTimeStr st).bind fun p => (parseTimeStr et).map fun q =>
    (p.1 * 60 + p.2, q.1 * 60 + q.2)

/-- The four time fields of a stored record parsed as integers; `none`
when any `int(...)` raises (the record is then skipped). -/
def recFields (r : SRec) : Option (Int × Int × Int × Int) :=
  (parsePyInt r.start_hour).bind fun a =>
  (parsePyInt r.start_min).bind fun b =>
  (parsePyInt r.end_hour).bind fun c =>
  (parsePyInt r.end_min).map fun d => (a, b, c, d)

def recParses (r : SRec) : Bool := (recFields r).isSome

def startMinutes (r : SRec) : Option Int :=
  (parsePyInt r.start_hour).bind fun a => (parsePyInt r.start_min).map fun b => a * 60 + b

def endMinutes (r : SRec) : Option Int :=
  (parsePyInt r.end_hour).bind fun c => (parsePyInt r.end_min).map fun d => c * 60 + d

/-- `if exclude_name and existing['name'] == exclude_name`: an empty
exclude name is falsy, so it never skips anything. -/
def excludeMatch (ex : Option String) (nm : String) : Bool :=
  match ex with
  | none => false
  | some e => (e != "") && (nm == e)

/-- `sorted(set(candidateDays) & set(existingDays))`. -/
def sharedDayChars (cand exist : String) : List Char :=
  sortChars ((cand.toList.filter (fun ch => exist.toList.contains ch)).eraseDups)

/-- `f"{h}:{str(m).zfill(2)}"`. -/
def fmtTime (h m : Int) : String := pyIntStr h ++ ":" ++ pyZfill2 (pyIntStr m)

/-- `','.join([DAY_NAMES[d] for d in sorted(overlap_days) if d in DAY_NAMES])`. -/
def joinDayNames (shared : List Char) : String :=
  String.intercalate "," (shared.filterMap dayName)

/-- The body of the per-record loop of `check_schedule_overlap`: skip on
exclusion, skip on disjoint day sets, skip records whose time fields do
not parse, otherwise report iff the half-open windows intersect. -/
def conflictOf (cdays : String) (ns ne : Int) (ex : Option String) (r : SRec) :
    Option Conflict :=
  if excludeMatch ex r.name then none
  else if (sharedDayChars cdays r.days).isEmpty then none
  else
    match recFields r with
    | none => none
    | some (a, b, c, d) =>
      if ns < c * 60 + d ∧ ne > a * 60 + b then
        some { name := r.name, startStr := fmtTime a b, endStr := fmtTime c d,
               days := joinDayNames (sharedDayChars cdays r.days) }
      else none

/-- `check_schedule_overlap(manager, date, days, start_time, end_time,
exclude_name)`. -/
def checkScheduleOverlap (store : Store) (date days st et : String)
    (ex : Option String) : List Conflict :=
  match getRecords store date with
  | none => []
  | some recs =>
    match candMinutes st et with
    | none => []
    | some (ns, ne) => recs.filterMap (conflictOf days ns ne ex)

/-- The overlap check with the store state threaded explicitly: the Python
function only reads `manager.schedules`, so the state component is returned
unchanged. -/
def checkScheduleOverlapSt (store : Store) (date days st et : String)
    (ex : Option String) : Store × List Conflict :=
  (store, checkScheduleOverlap store date days st et ex)

/-- Replace the record list under one key by its filtered version. -/
def filterStoreKey (store : Store) (key : String) (p : SRec → Bool) : Store :=
  store.map (fun kv => if kv.1 == key then (kv.1, kv.2.filter p) else kv)

/-! ## Template derivation (`create_from_template_interactive`) -/

/-- Sakamoto weekday, zero meaning Sunday, for the Gregorian calendar. -/
def sakamotoT : Nat → Nat
  | 1 => 0 | 2 => 3 | 3 => 2 | 4 => 5 | 5 => 0 | 6 => 3
  | 7 => 5 | 8 => 1 | 9 => 4 | 10 => 6 | 11 => 2 | 12 => 4
  | _ => 0

def dowSakamoto (y m d : Nat) : Nat :=
  let yy := if m < 3 then y - 1 else y
  (yy + yy / 4 - yy / 100 + yy / 400 + sakamotoT m + d) % 7

/-- Python `datetime.weekday()`: Monday is 0, Sunday is 6. -/
def pyWeekday (y m d : Nat) : Nat := (dowSakamoto y m d + 6) % 7

/-- `target_day = str(target_date_obj.weekday() + 1)`. -/
def targetDayToken (y m d : Nat) : String := pyNatStr (pyWeekday y m d + 1)

/-- `if target_day in schedule['days']` (Python substring membership). -/
def dayInStr (td days : String) : Bool := strContains days td

/-- The caller-chosen modification step of the template flow: copy as-is,
uniform minute shift, or subset selection by (already zero-based) indices. -/
inductive Transform where
  | asIs : Transform
  | shift (s : Int) : Transform
  | select (idxs : List Int) : Transform
deriving DecidableEq

/-- The time-adjustment loop body of option 2: recompute both endpoints
from `total // 60` and `total % 60`; `none` when an `int(...)` raises. -/
def shiftRecord (s : Int) (r : SRec) : Option SRec :=
  match recFields r with
  | none => none
  | some (a, b, c, d) =>
    let sm := a * 60 + b + s
    let em := c * 60 + d + s
    some { r with
      start_hour := pyIntStr (sm / 60), start_min := pyIntStr (sm % 60),
      end_hour := pyIntStr (em / 60), end_min := pyIntStr (em % 60) }

def applyTransform : Transform → List SRec → Option (List SRec)
  | .asIs, recs => some recs
  | .shift s, recs => recs.mapM (shiftRecord s)
  | .select idxs, recs =>
    let sel := idxs.filterMap (fun i =>
      if 0 ≤ i ∧ i < (recs.length : Int) then recs.get? i.toNat else none)
    if sel.isEmpty then none else some sel

/-- Template derivation for a fixed day token: optionally filter the source
records by the target day, abort when nothing remains, apply the chosen
transform, then re-tag every record's `days` field to the target day. -/
def deriveForDate (recs : List SRec) (targetDay : String) (filterByDay : Bool)
    (t : Transform) : Option (List SRec) :=
  let tmpl := if filterByDay then recs.filter (fun r => dayInStr targetDay r.days) else recs
  if tmpl.isEmpty then none
  else (applyTransform t tmpl).map (List.map (fun r => { r with days := targetDay }))

/-- The full derivation flow for a target date: the code computes the day
token and immediately evaluates `DAY_NAMES[target_day]` inside a bare
`try`, so a failed name lookup aborts the whole flow before any record is
derived. -/
def createFromTemplate (y m d : Nat) (recs : List SRec) (filterByDay : Bool)
    (t : Transform) : Option (List SRec) :=
  match dayNameS (targetDayToken y m d) with
  | none => none
  | some _ => deriveForDate recs (targetDayToken y m d) filterByDay t

/-- The merge branch of the final confirmation:
`manager.schedules[target_date].extend(selected_schedules)`. -/
def mergeSchedules (store : Store) (key : String) (recs : List SRec) : Store :=
  store.map (fun kv => if kv.1 == key then (kv.1, kv.2 ++ recs) else kv)

/-! ## Event validation (`EventValidator.validate_event`) -/

/-- One tag per `errors.append` site of `validate_event` and its helpers. -/
inductive EvErr where
  | dateFormat | dateInvalid | datePast
  | topEmpty | topLong
  | bottomEmpty | bottomLong
  | imageNotBmp | imageNotFound
  | colorBad
  | startHourNaN | startHourRange
  | endHourNaN | endHourRange
  | rangeBad
deriving DecidableEq

def isLeap (y : Nat) : Bool := y % 4 == 0 && (y % 100 != 0 || y % 400 == 0)

def daysInMonth (y m : Nat) : Nat :=
  match m with
  | 1 => 31 | 2 => if isLeap y then 29 else 28 | 3 => 31 | 4 => 30
  | 5 => 31 | 6 => 30 | 7 => 31 | 8 => 31 | 9 => 30 | 10 => 31
  | 11 => 30 | 12 => 31 | _ => 0

/-- The regex `^\d{4}-\d{2}-\d{2}$`. -/
def dateRegexMatch (s : String) : Bool :=
  match s.toList with
  | [a, b, c, d, e, f, g, h, i, j] =>
    isDigitChar a && isDigitChar b && isDigitChar c && isDigitChar d &&
    (e == '-') && isDigitChar f && isDigitChar g && (h == '-') &&
    isDigitChar i && isDigitChar j
  | _ => false

/-- `datetime.strptime(date_str, '%Y-%m-%d')`: `none` where it raises. -/
def parseDateStr (s : String) : Option (Nat × Nat × Nat) :=
  match s.toList with
  | [a, b, c, d, e, f, g, h, i, j] =>
    if isDigitChar a && isDigitChar b && isDigitChar c && isDigitChar d &&
       (e == '-') && isDigitChar f && isDigitChar g && (h == '-') &&
       isDigitChar i && isDigitChar j then
      let y := charVal a * 1000 + charVal b * 100 + charVal c * 10 + charVal d
      let mo := charVal f * 10 + charVal g
      let dy := charVal i * 10 + charVal j
      if 1 ≤ y ∧ 1 ≤ mo ∧ mo ≤ 12 ∧ 1 ≤ dy ∧ dy ≤ daysInMonth y mo then
        some (y, mo, dy)
      else none
    else none
  | _ => none

/-- Calendar-date comparison, `event_date < today`. -/
def dateLt (a b : Nat × Nat × Nat) : Bool :=
  decide (a.1 < b.1 ∨ (a.1 = b.1 ∧ (a.2.1 < b.2.1 ∨ (a.2.1 = b.2.1 ∧ a.2.2 < b.2.2))))

/-- `EventValidator.validate_date`, with the current day passed explicitly. -/
def validate_date (today : Nat × Nat × Nat) (s : String) : Option EvErr :=
  if dateRegexMatch s = false then some .dateFormat
  else
    match parseDateStr s with
    | none => some .dateInvalid
    | some dt => if dateLt dt today then some .datePast else none

/-- `EventValidator.validate_text`: the emptiness check (`not text or not
text.strip()`) is performed before the length check. -/
def validate_text (eEmpty eLong : EvErr) (text : String) (maxLength : Nat) :
    Option EvErr :=
  if text == "" || pyStrip text == "" then some eEmpty
  else if maxLength < text.length then some eLong
  else none

/-- `EventValidator.validate_time`: hour in 0..23. -/
def validate_time (eNaN eRange : EvErr) (s : String) : Option EvErr :=
  match parsePyInt s with
  | none => some eNaN
  | some h => if 0 ≤ h ∧ h ≤ 23 then none else some eRange

/-- `validate_image`, with the image-folder listing passed explicitly: an
empty listing degrades to the `.bmp`-suffix check. -/
def validate_image {α : Type} (eBmp eNotFound : α) (avail : List String)
    (image : String) : Option α :=
  if avail.isEmpty then
    if pyEndsWith image ".bmp" then none else some eBmp
  else if avail.contains image then none else some eNotFound

/-- `validate_color`: uppercased membership in `VALID_COLORS`. -/
def validate_color {α : Type} (eColor : α) (color : String) : Option α :=
  if VALID_COLORS.contains (pyUpper color) then none else some eColor

/-- `EventValidator.validate_event`: every field is validated and all
errors are appended to one list; the final hour-range check swallows
`ValueError`. Returns `(len(errors) == 0, errors)`. -/
def validate_event (today : Nat × Nat × Nat) (avail : List String)
    (date top bottom image color : String) (sh eh : Option String) :
    Bool × List EvErr :=
  let errs :=
    (validate_date today date).toList ++
    (validate_text .topEmpty .topLong top 12).toList ++
    (validate_text .bottomEmpty .bottomLong bottom 12).toList ++
    (validate_image EvErr.imageNotBmp EvErr.imageNotFound avail image).toList ++
    (validate_color EvErr.colorBad color).toList ++
    (match sh with
     | some s => (validate_time .startHourNaN .startHourRange s).toList
     | none => []) ++
    (match eh with
     | some s => (validate_time .endHourNaN .endHourRange s).toList
     | none => []) ++
    (match sh, eh with
     | some a, some b =>
       match parsePyInt a, parsePyInt b with
       | some x, some y => if y ≤ x then [EvErr.rangeBad] else []
       | _, _ => []
     | _, _ => [])
  (errs.isEmpty, errs)

/-! ## Schedule validation (`ScheduleValidator.validate_schedule`) -/

/-- One tag per `errors.append` site of `validate_schedule`. -/
inductive SchedErr where
  | nameEmpty | nameLong
  | daysEmpty | daysBadChar (c : Char) | daysDup
  | startTimeBad | endTimeBad
  | startBeforeEnd
  | imageNotBmp | imageNotFound
deriving DecidableEq

/-- `ScheduleValidator.validate_schedule_name`. -/
def validate_schedule_name (name : String) : Option SchedErr :=
  if name == "" || pyStrip name == "" then some .nameEmpty
  else if 30 < name.length then some .nameLong
  else none

/-- `ScheduleValidator.validate_days`: nonempty, every character in
`VALID_DAYS` (reported at the first offender), no duplicates. -/
def validate_days (s : String) : Option SchedErr :=
  if s == "" || pyStrip s == "" then some .daysEmpty
  else
    match s.toList.find? (fun c => !(VALID_DAYS.toList.contains c)) with
    | some c => some (.daysBadChar c)
    | none =>
      if s.toList.eraseDups.length ≠ s.toList.length then some .daysDup else none

/-- `ScheduleValidator.validate_time_format`: `^\d{1,2}:\d{2}$` with hour
0..23 and minute 0..59. -/
def validate_time_format (s : String) : Bool :=
  match splitOnChar ':' s with
  | [hs, ms] =>
    decide (1 ≤ hs.length) && decide (hs.length ≤ 2) && decide (ms.length = 2) &&
    hs.toList.all isDigitChar && ms.toList.all isDigitChar &&
    decide (digitsVal hs.toList ≤ 23) && decide (digitsVal ms.toList ≤ 59)
  | _ => false

/-- `ScheduleValidator.validate_time_range`: true when both times parse
and the start minute-of-day strictly precedes the end. -/
def validate_time_range (st et : String) : Bool :=
  match parseTimeStr st, parseTimeStr et with
  | some (sh, sm), some (eh, em) => decide (sh * 60 + sm < eh * 60 + em)
  | _, _ => false

/-- `ScheduleValidator.validate_schedule`: name, days and the two time
formats are checked first; the start-before-end check runs only when no
error has been recorded so far (`if not errors:`); the image check runs
after that gate and its error cannot suppress the range error. -/
def validate_schedule (avail : List String) (name days st et image : String) :
    Bool × List SchedErr :=
  let e1 := (validate_schedule_name name).toList
  let e2 := (validate_days days).toList
  let e3 := if validate_time_format st then [] else [SchedErr.startTimeBad]
  let e4 := if validate_time_format et then [] else [SchedErr.endTimeBad]
  let soFar := e1 ++ e2 ++ e3 ++ e4
  let e5 :=
    if soFar.isEmpty then
      if validate_time_range st et then [] else [SchedErr.startBeforeEnd]
    else []
  let e6 := (validate_image SchedErr.imageNotBmp SchedErr.imageNotFound avail image).toList
  let errs := soFar ++ e5 ++ e6
  (errs.isEmpty, errs)

/-! ## Lemmas: decimal print/parse round trip -/

theorem digitChar_spec (d : Nat) (h : d < 10) :
    charVal (digitChar d) = d ∧ isDigitChar (digitChar d) = true := by
  interval_cases d <;> exact ⟨by decide, by decide⟩

theorem nonspace_of_digit (c : Char) (h : isDigitChar c = true) :
    isSpaceChar c = false := by
  simp only [isDigitChar, Bool.and_eq_true, decide_eq_true_eq] at h
  simp only [isSpaceChar, Bool.or_eq_false_iff, beq_eq_false_iff_ne, ne_eq,
    decide_eq_false_iff_not]
  refine ⟨⟨⟨⟨⟨?_, ?_⟩, ?_⟩, ?_⟩, ?_⟩, ?_⟩ <;> intro hc <;>
    first
      | (subst hc; revert h; decide)
      | omega

theorem pyStrip_of_nonspace (l : List Char) (h : ∀ c ∈ l, isSpaceChar c = false) :
    pyStrip (String.mk l) = String.mk l := by
  have hdrop : ∀ m : List Char, (∀ c ∈ m, isSpaceChar c = false) →
      m.dropWhile isSpaceChar = m := by
    intro m hm
    cases m with
    | nil => rfl
    | cons c t => simp [List.dropWhile, hm c (List.mem_cons_self c t)]
  have h1 : (String.mk l).toList = l := rfl
  simp only [pyStrip, h1, hdrop l h]
  rw [hdrop l.reverse (fun c hc => h c (List.mem_reverse.mp hc)), List.reverse_reverse]

theorem digitsVal_append (xs : List Char) (c : Char) :
    digitsVal (xs ++ [c]) = digitsVal xs * 10 + charVal c := by
  simp [digitsVal, List.foldl_append]

theorem natDigitsAux_succ (fuel n : Nat) :
    natDigitsAux (fuel + 1) n =
      if n < 10 then [digitChar n]
      else natDigitsAux fuel (n / 10) ++ [digitChar (n % 10)] := rfl

theorem natDigitsAux_spec : ∀ fuel n, n < 10 ^ (fuel + 1) →
    natDigitsAux (fuel + 1) n ≠ [] ∧
    (natDigitsAux (fuel + 1) n).all isDigitChar = true ∧
    digitsVal (natDigitsAux (fuel + 1) n) = n := by
  intro fuel
  induction fuel with
  | zero =>
    intro n h
    have h10 : n < 10 := by simpa using h
    obtain ⟨hv, hd⟩ := digitChar_spec n h10
    rw [natDigitsAux_succ, if_pos h10]
    exact ⟨by simp, by simp [hd], by simp [digitsVal, hv]⟩
  | succ fuel ih =>
    intro n h
    by_cases h10 : n < 10
    · obtain ⟨hv, hd⟩ := digitChar_spec n h10
      rw [natDigitsAux_succ, if_pos h10]
      exact ⟨by simp, by simp [hd], by simp [digitsVal, hv]⟩
    · have hk : n < 10 ^ (fuel + 1) * 10 := by
        rw [← pow_succ]; exact h
      have hdiv : n / 10 < 10 ^ (fuel + 1) := by
        generalize 10 ^ (fuel + 1) = k at hk ⊢
        omega
      obtain ⟨h1, h2, h3⟩ := ih (n / 10) hdiv
      have hm : n % 10 < 10 := Nat.mod_lt _ (by norm_num)
      obtain ⟨hv, hd⟩ := digitChar_spec (n % 10) hm
      rw [natDigitsAux_succ, if_neg h10]
      refine ⟨by simp, ?_, ?_⟩
      · rw [List.all_append, h2]
        simp [hd]
      · rw [digitsVal_append, h3, hv]
        omega

theorem lt_ten_pow (n : Nat) : n < 10 ^ (n + 1) := by
  induction n with
  | zero => norm_num
  | succ n ih =>
    have hpos : 0 < 10 ^ (n + 1) := pow_pos (by norm_num) _
    have hstep : 10 ^ (n + 2) = 10 ^ (n + 1) * 10 := by ring
    rw [hstep]
    generalize 10 ^ (n + 1) = k at ih hpos ⊢
    omega

theorem natDigits_spec (n : Nat) :
    natDigits n ≠ [] ∧ (natDigits n).all isDigitChar = true ∧
    digitsVal (natDigits n) = n :=
  natDigitsAux_spec n n (lt_ten_pow n)

theorem parseDigits_natDigits (n : Nat) : parseDigits (natDigits n) = some n := by
  obtain ⟨h1, h2, h3⟩ := natDigits_spec n
  simp [parseDigits, List.isEmpty_iff, h1, h2, h3]

theorem digit_not_sign (c : Char) (h : isDigitChar c = true) :
    (c == '-') = false ∧ (c == '+') = false := by
  constructor <;> (rw [beq_eq_false_iff_ne]; intro hc; subst hc; revert h; decide)

theorem parsePyIntL_dash (l : List Char) :
    parsePyIntL ('-' :: l) = (parseDigits l).map (fun n => -(n : Int)) := by
  simp [parsePyIntL]

theorem parsePyIntL_digit (c : Char) (l : List Char) (h : isDigitChar c = true) :
    parsePyIntL (c :: l) = (parseDigits (c :: l)).map (fun n => (n : Int)) := by
  obtain ⟨hm, hp⟩ := digit_not_sign c h
  simp [parsePyIntL, hm, hp]

theorem toList_mk (l : List Char) : (String.mk l).toList = l := rfl

theorem parsePyInt_pyIntStr (i : Int) : parsePyInt (pyIntStr i) = some i := by
  by_cases hneg : i < 0
  · obtain ⟨h1, h2, h3⟩ := natDigits_spec i.natAbs
    have hall : ∀ c ∈ natDigits i.natAbs, isDigitChar c = true :=
      (List.all_eq_true).mp h2
    have hstrip : pyStrip (String.mk ('-' :: natDigits i.natAbs)) =
        String.mk ('-' :: natDigits i.natAbs) := by
      refine pyStrip_of_nonspace _ ?_
      intro c hc
      rcases List.mem_cons.mp hc with hc | hc
      · subst hc; decide
      · exact nonspace_of_digit c (hall c hc)
    rw [pyIntStr, if_pos hneg, parsePyInt, hstrip, toList_mk, parsePyIntL_dash,
      parseDigits_natDigits]
    exact congrArg some (show -((i.natAbs : Int)) = i by omega)
  · obtain ⟨g1, g2, g3⟩ := natDigits_spec i.toNat
    have hallt : ∀ c ∈ natDigits i.toNat, isDigitChar c = true :=
      (List.all_eq_true).mp g2
    have hstrip : pyStrip (String.mk (natDigits i.toNat)) =
        String.mk (natDigits i.toNat) :=
      pyStrip_of_nonspace _ (fun c hc => nonspace_of_digit c (hallt c hc))
    rw [pyIntStr, if_neg hneg, parsePyInt, hstrip, toList_mk]
    cases hd : natDigits i.toNat with
    | nil => exact absurd hd g1
    | cons c rest =>
      have hcd : isDigitChar c = true := hallt c (hd ▸ List.mem_cons_self c rest)
      rw [parsePyIntL_digit c rest hcd, ← hd, parseDigits_natDigits]
      exact congrArg some (show ((i.toNat : Int)) = i by omega)

/-! ## Lemmas: the store and the overlap scan -/

theorem getRecords_filterStoreKey (store : Store) (key : String) (p : SRec → Bool) :
    getRecords (filterStoreKey store key p) key =
      (getRecords store key).map (fun l => l.filter p) := by
  induction store with
  | nil => rfl
  | cons kv t ih =>
    by_cases hk : kv.1 == key
    · simp [getRecords, filterStoreKey, List.find?, hk]
    · simp only [getRecords, filterStoreKey, List.map_cons, List.find?, hk] at ih ⊢
      simpa [hk] using ih

theorem getRecords_mergeSchedules (store : Store) (key : String) (recs : List SRec) :
    getRecords (mergeSchedules store key recs) key =
      (getRecords store key).map (fun l => l ++ recs) := by
  induction store with
  | nil => rfl
  | cons kv t ih =>
    by_cases hk : kv.1 == key
    · simp [getRecords, mergeSchedules, List.find?, hk]
    · simp only [getRecords, mergeSchedules, List.map_cons, List.find?, hk] at ih ⊢
      simpa [hk] using ih

theorem filterMap_eq_of_none_outside {α β : Type} (f : α → Option β) (p : α → Bool)
    (h : ∀ a, p a = false → f a = none) :
    ∀ l : List α, l.filterMap f = (l.filter p).filterMap f := by
  intro l
  induction l with
  | nil => rfl
  | cons a t ih =>
    by_cases hp : p a
    · simp [List.filterMap_cons, List.filter_cons, hp, ih]
    · have hf : f a = none := h a (by simpa using hp)
      simp [List.filterMap_cons, List.filter_cons, hp, hf, ih]

theorem conflictOf_none_of_unparsed (cdays : String) (ns ne : Int) (ex : Option String)
    (r : SRec) (h : recParses r = false) : conflictOf cdays ns ne ex r = none := by
  have hf : recFields r = none := by
    revert h
    unfold recParses
    cases recFields r <;> simp
  unfold conflictOf
  rw [hf]
  by_cases he : excludeMatch ex r.name
  · rw [if_pos he]
  · rw [if_neg he]
    by_cases hsh : (sharedDayChars cdays r.days).isEmpty = true
    · rw [if_pos hsh]
    · rw [if_neg hsh]

/-! ## Claim C1 -/

/-- C1: for a record stored under the queried key whose day set shares at
least one token with the candidate and whose time fields parse, the overlap
check reports a conflict if and only if the candidate start minute is
strictly below the record end minute and the candidate end minute strictly
above the record start minute; touching windows are never reported. -/
theorem C1_overlap_iff (key cdays st et : String) (r : SRec) (ns ne a b c d : Int)
    (hc : candMinutes st et = some (ns, ne))
    (hr : recFields r = some (a, b, c, d))
    (hshare : sharedDayChars cdays r.days ≠ []) :
    checkScheduleOverlap [(key, [r])] key cdays st et none ≠ [] ↔
      ns < c * 60 + d ∧ ne > a * 60 + b := by
  have hg : getRecords [(key, [r])] key = some [r] := by
    simp [getRecords, List.find?]
  have hie : (sharedDayChars cdays r.days).isEmpty = false := by
    cases hsh : sharedDayChars cdays r.days with
    | nil => exact absurd hsh hshare
    | cons x xs => rfl
  simp only [checkScheduleOverlap, hg, hc]
  simp only [List.filterMap_cons, List.filterMap_nil, conflictOf, excludeMatch,
    Bool.false_eq_true, if_false, hie, hr]
  by_cases hcond : ns < c * 60 + d ∧ ne > a * 60 + b
  · simp [hcond]
  · simp [hcond]

/-- C1 witness: the candidate window 08:30 to 08:45 against the stored
window 08:00 to 09:00 on a shared day. -/
theorem C1_overlap_iff_witness :
    checkScheduleOverlap
        [("default", [⟨"A", "1", "1234567", "08", "00", "09", "00", "a.bmp", "1"⟩])]
        "default" "3" "08:30" "08:45" none ≠ [] ↔
      (510 : Int) < 9 * 60 + 0 ∧ (525 : Int) > 8 * 60 + 0 :=
  C1_overlap_iff "default" "3" "08:30" "08:45"
    ⟨"A", "1", "1234567", "08", "00", "09", "00", "a.bmp", "1"⟩
    510 525 8 0 9 0 (by decide) (by decide) (by decide)

/-! ## Claim C2 -/

/-- C2: the overlap check, with the store state threaded explicitly,
returns the store unchanged, and its conflict list is the same as the one
computed over the store with every record whose time fields do not parse
removed from the queried key: malformed records are skipped and the
conflicts of the remaining records are still returned, for every store
contents and every argument. (Totality of the embedding reflects that the
scan itself raises no exception on malformed field values.) -/
theorem C2_no_mutation_skip_malformed (store : Store) (key days st et : String)
    (ex : Option String) :
    (checkScheduleOverlapSt store key days st et ex).1 = store ∧
    (checkScheduleOverlapSt store key days st et ex).2 =
      checkScheduleOverlap (filterStoreKey store key recParses) key days st et ex := by
  refine ⟨rfl, ?_⟩
  show checkScheduleOverlap store key days st et ex = _
  unfold checkScheduleOverlap
  rw [getRecords_filterStoreKey]
  cases hg : getRecords store key with
  | none => rfl
  | some recs =>
    cases hcm : candMinutes st et with
    | none => rfl
    | some p =>
      obtain ⟨ns, ne⟩ := p
      exact filterMap_eq_of_none_outside _ recParses
        (fun r h => conflictOf_none_of_unparsed days ns ne ex r h) recs

/-! ## Claim C3 -/

/-- C3: with exactly one stored record, named A, on all seven day tokens
from 08:00 to 09:00, and the candidate on days 37 from 08:30 to 08:45, the
overlap check returns exactly one descriptor, for A; the shared day tokens
are 3 and 7, and the descriptor day field keeps only the rendering of
token 3 (Thu), because token 7 has no DAY_NAMES entry. -/
theorem C3_single_conflict_day3 :
    checkScheduleOverlap
        [("default", [⟨"A", "1", "1234567", "08", "00", "09", "00", "a.bmp", "1"⟩])]
        "default" "37" "08:30" "08:45" none =
      [⟨"A", "8:00", "9:00", "Thu"⟩] ∧
    sharedDayChars "37" "1234567" = ['3', '7'] ∧
    (sharedDayChars "37" "1234567").filterMap dayName = ["Thu"] :=
  ⟨by decide, by decide, by decide⟩

/-! ## Claim C8 -/

/-- C8 counterexample: the claim says a stored record whose name equals the
exclude name is skipped for every exclude-name value including the empty
string; but with the empty exclude name the truthiness guard
`if exclude_name and ...` never fires, and the record named by the empty
string is still reported. -/
theorem C8_counterexample :
    checkScheduleOverlap
        [("default", [⟨"", "1", "1", "08", "00", "09", "00", "a.bmp", "1"⟩])]
        "default" "1" "08:30" "08:45" (some "") =
      [⟨"", "8:00", "9:00", "Tue"⟩] := by decide

/-- C8 amended: for every nonempty exclude name, every stored record whose
name equals it is skipped, so no returned conflict descriptor carries that
name; with the empty exclude name nothing is skipped. -/
theorem C8_amended_exclude (store : Store) (key cdays st et ex : String) (d : Conflict)
    (hex : ex ≠ "") (hd : d ∈ checkScheduleOverlap store key cdays st et (some ex)) :
    d.name ≠ ex := by
  unfold checkScheduleOverlap at hd
  cases hg : getRecords store key with
  | none => rw [hg] at hd; simp at hd
  | some recs =>
    rw [hg] at hd
    cases hcm : candMinutes st et with
    | none => rw [hcm] at hd; simp at hd
    | some p =>
      obtain ⟨ns, ne⟩ := p
      rw [hcm] at hd
      rw [List.mem_filterMap] at hd
      obtain ⟨r, hrmem, hconf⟩ := hd
      by_cases hem : excludeMatch (some ex) r.name
      · rw [conflictOf, if_pos hem] at hconf
        cases hconf
      · have hne : r.name ≠ ex := by
          intro hEq
          apply hem
          simp [excludeMatch, hEq, hex]
        rw [conflictOf, if_neg hem] at hconf
        by_cases hsh : (sharedDayChars cdays r.days).isEmpty = true
        · rw [if_pos hsh] at hconf
          cases hconf
        · rw [if_neg hsh] at hconf
          split at hconf
          · cases hconf
          · split at hconf
            · cases hconf
              exact hne
            · cases hconf

/-- C8 witness: excluding the name A leaves the conflicting record named B
reported, and its descriptor name differs from the exclude name. -/
theorem C8_amended_exclude_witness :
    (Conflict.mk "B" "8:00" "9:00" "Tue").name ≠ "A" :=
  C8_amended_exclude
    [("default", [⟨"B", "1", "1", "08", "00", "09", "00", "a.bmp", "1"⟩])]
    "default" "1" "08:30" "08:45" "A" (Conflict.mk "B" "8:00" "9:00" "Tue")
    (by decide) (by decide)

/-! ## Claim C4 -/

/-- C4: whenever the template-derivation flow produces a record list, every
record in it carries the singleton day token computed from the target date,
never the source day-set, for every source collection and every transform
(identity copy, uniform shift, subset selection). -/
theorem C4_retag_days (y m d : Nat) (recs : List SRec) (fb : Bool) (t : Transform)
    (out : List SRec) (r : SRec)
    (h : createFromTemplate y m d recs fb t = some out) (hr : r ∈ out) :
    r.days = targetDayToken y m d := by
  unfold createFromTemplate at h
  cases hdn : dayNameS (targetDayToken y m d) with
  | none => rw [hdn] at h; cases h
  | some nm =>
    rw [hdn] at h
    simp only [deriveForDate] at h
    generalize (if fb = true
        then List.filter (fun r => dayInStr (targetDayToken y m d) r.days) recs
        else recs) = tmpl at h
    by_cases hemp : tmpl.isEmpty = true
    · rw [if_pos hemp] at h
      cases h
    · rw [if_neg hemp] at h
      rw [Option.map_eq_some'] at h
      obtain ⟨l, hl, hout⟩ := h
      rw [← hout] at hr
      rw [List.mem_map] at hr
      obtain ⟨x, hx, hxr⟩ := hr
      rw [← hxr]

/-- C4 witness: deriving for Monday 2025-01-06 from an all-days source
record produces a record tagged with the Monday token. -/
theorem C4_retag_days_witness :
    (SRec.mk "A" "1" "1" "08" "00" "09" "00" "a.bmp" "1").days =
      targetDayToken 2025 1 6 :=
  C4_retag_days 2025 1 6 [⟨"A", "1", "1234567", "08", "00", "09", "00", "a.bmp", "1"⟩]
    true Transform.asIs [⟨"A", "1", "1", "08", "00", "09", "00", "a.bmp", "1"⟩]
    (SRec.mk "A" "1" "1" "08" "00" "09" "00" "a.bmp" "1")
    (by decide) (by decide)

/-! ## Claim C9 -/

/-- C9 counterexample: for the Sunday target 2025-01-05 the flow computes
the day token 7, but it then aborts at the DAY_NAMES lookup (bare
`except` around `DAY_NAMES[target_day]`), so no records are derived and
re-tagged to 7 at all — even when the source contains a record whose
day-set includes the character 7. -/
theorem C9_counterexample :
    targetDayToken 2025 1 5 = "7" ∧
    createFromTemplate 2025 1 5
        [⟨"A", "1", "1234567", "08", "00", "09", "00", "a.bmp", "1"⟩]
        true Transform.asIs = none :=
  ⟨by decide, by decide⟩

/-- C9 amended: for every Sunday target date the flow computes the day
token 7; that token has no DAY_NAMES entry and lies outside VALID_DAYS
(so validate_days rejects it), and the failed DAY_NAMES lookup makes the
template flow abort before deriving any record, for every source
collection and transform. -/
theorem C9_amended (y m d : Nat) (recs : List SRec) (fb : Bool) (t : Transform)
    (h : pyWeekday y m d = 6) :
    targetDayToken y m d = "7" ∧ dayNameS "7" = none ∧
    validate_days "7" = some (SchedErr.daysBadChar '7') ∧
    createFromTemplate y m d recs fb t = none := by
  have htok : targetDayToken y m d = "7" := by
    unfold targetDayToken
    rw [h]
    rfl
  refine ⟨htok, by decide, by decide, ?_⟩
  unfold createFromTemplate
  rw [htok]
  rfl

/-- C9 witness: 2025-01-05 is a Sunday. -/
theorem C9_amended_witness :
    targetDayToken 2025 1 5 = "7" ∧ dayNameS "7" = none ∧
    validate_days "7" = some (SchedErr.daysBadChar '7') ∧
    createFromTemplate 2025 1 5
        [⟨"B", "1", "7", "10", "00", "11", "00", "a.bmp", "1"⟩]
        true Transform.asIs = none :=
  C9_amended 2025 1 5 [⟨"B", "1", "7", "10", "00", "11", "00", "a.bmp", "1"⟩]
    true Transform.asIs (by decide)

/-! ## Claim C5 -/

/-- C5: for every record whose time fields parse and every shift s keeping
both shifted minute totals inside the day, shifting by s and then by -s
reproduces the original start and end minute-of-day values exactly. -/
theorem C5_shift_roundtrip (r : SRec) (s a b c d : Int)
    (hf : recFields r = some (a, b, c, d))
    (h1 : 0 ≤ a * 60 + b + s) (h2 : a * 60 + b + s < 1440)
    (h3 : 0 ≤ c * 60 + d + s) (h4 : c * 60 + d + s < 1440) :
    ((shiftRecord s r).bind (shiftRecord (-s))).bind startMinutes =
      some (a * 60 + b) ∧
    ((shiftRecord s r).bind (shiftRecord (-s))).bind endMinutes =
      some (c * 60 + d) := by
  have hs1 : shiftRecord s r = some
      { r with
        start_hour := pyIntStr (((a * 60 + b + s) / 60)),
        start_min := pyIntStr (((a * 60 + b + s) % 60)),
        end_hour := pyIntStr (((c * 60 + d + s) / 60)),
        end_min := pyIntStr (((c * 60 + d + s) % 60)) } := by
    unfold shiftRecord
    rw [hf]
  have hrf1 : recFields
      { r with
        start_hour := pyIntStr (((a * 60 + b + s) / 60)),
        start_min := pyIntStr (((a * 60 + b + s) % 60)),
        end_hour := pyIntStr (((c * 60 + d + s) / 60)),
        end_min := pyIntStr (((c * 60 + d + s) % 60)) } = some
      (((a * 60 + b + s) / 60), ((a * 60 + b + s) % 60),
       ((c * 60 + d + s) / 60), ((c * 60 + d + s) % 60)) := by
    simp [recFields, parsePyInt_pyIntStr]
  have e1 : ((a * 60 + b + s) / 60) * 60 + ((a * 60 + b + s) % 60) + -s =
      a * 60 + b := by omega
  have e2 : ((c * 60 + d + s) / 60) * 60 + ((c * 60 + d + s) % 60) + -s =
      c * 60 + d := by omega
  have hs2 : shiftRecord (-s)
      { r with
        start_hour := pyIntStr (((a * 60 + b + s) / 60)),
        start_min := pyIntStr (((a * 60 + b + s) % 60)),
        end_hour := pyIntStr (((c * 60 + d + s) / 60)),
        end_min := pyIntStr (((c * 60 + d + s) % 60)) } = some
      { r with
        start_hour := pyIntStr (((a * 60 + b) / 60)),
        start_min := pyIntStr (((a * 60 + b) % 60)),
        end_hour := pyIntStr (((c * 60 + d) / 60)),
        end_min := pyIntStr (((c * 60 + d) % 60)) } := by
    unfold shiftRecord
    rw [hrf1]
    dsimp only
    rw [e1, e2]
  rw [hs1, Option.some_bind, hs2, Option.some_bind]
  constructor
  · simp only [startMinutes, parsePyInt_pyIntStr, Option.some_bind, Option.map_some']
    exact congrArg some (by omega)
  · simp only [endMinutes, parsePyInt_pyIntStr, Option.some_bind, Option.map_some']
    exact congrArg some (by omega)

/-- C5 witness: shifting the 08:00 to 09:00 record by 30 minutes and back. -/
theorem C5_shift_roundtrip_witness :
    ((shiftRecord 30 ⟨"A", "1", "1", "08", "00", "09", "00", "a.bmp", "1"⟩).bind
        (shiftRecord (-30))).bind startMinutes = some (8 * 60 + 0) ∧
    ((shiftRecord 30 ⟨"A", "1", "1", "08", "00", "09", "00", "a.bmp", "1"⟩).bind
        (shiftRecord (-30))).bind endMinutes = some (9 * 60 + 0) :=
  C5_shift_roundtrip ⟨"A", "1", "1", "08", "00", "09", "00", "a.bmp", "1"⟩
    30 8 0 9 0 (by decide) (by decide) (by decide) (by decide) (by decide)

/-! ## Claim C6 -/

/-- C6: merging appends the derived records to the existing list with no
deduplication: merging the same derived list twice leaves the key holding
the old records followed by two copies of the derived list, so every
derived record occurs at least twice. -/
theorem C6_merge_no_dedup (store : Store) (key : String) (recs old : List SRec)
    (r : SRec) (h : getRecords store key = some old) (hne : old ≠ [])
    (hr : r ∈ recs) :
    getRecords (mergeSchedules (mergeSchedules store key recs) key recs) key =
      some (old ++ recs ++ recs) ∧
    2 ≤ (old ++ recs ++ recs).count r := by
  constructor
  · rw [getRecords_mergeSchedules, getRecords_mergeSchedules, h]
    rfl
  · have h1 : 1 ≤ recs.count r := List.one_le_count_iff.mpr hr
    rw [List.count_append, List.count_append]
    omega

/-- C6 witness: merging the singleton derived list twice into a key that
already holds one record. -/
theorem C6_merge_no_dedup_witness :
    getRecords
        (mergeSchedules
          (mergeSchedules [("2025-01-06", [⟨"A", "1", "1", "08", "00", "09", "00", "a.bmp", "1"⟩])]
            "2025-01-06" [⟨"B", "1", "1", "10", "00", "11", "00", "b.bmp", "0"⟩])
          "2025-01-06" [⟨"B", "1", "1", "10", "00", "11", "00", "b.bmp", "0"⟩])
        "2025-01-06" =
      some (([⟨"A", "1", "1", "08", "00", "09", "00", "a.bmp", "1"⟩] : List SRec) ++
        ([⟨"B", "1", "1", "10", "00", "11", "00", "b.bmp", "0"⟩] : List SRec) ++
        ([⟨"B", "1", "1", "10", "00", "11", "00", "b.bmp", "0"⟩] : List SRec)) ∧
    2 ≤ (([⟨"A", "1", "1", "08", "00", "09", "00", "a.bmp", "1"⟩] : List SRec) ++
        ([⟨"B", "1", "1", "10", "00", "11", "00", "b.bmp", "0"⟩] : List SRec) ++
        ([⟨"B", "1", "1", "10", "00", "11", "00", "b.bmp", "0"⟩] : List SRec)).count
        (⟨"B", "1", "1", "10", "00", "11", "00", "b.bmp", "0"⟩ : SRec) :=
  C6_merge_no_dedup [("2025-01-06", [⟨"A", "1", "1", "08", "00", "09", "00", "a.bmp", "1"⟩])]
    "2025-01-06" ([⟨"B", "1", "1", "10", "00", "11", "00", "b.bmp", "0"⟩] : List SRec)
    ([⟨"A", "1", "1", "08", "00", "09", "00", "a.bmp", "1"⟩] : List SRec)
    (⟨"B", "1", "1", "10", "00", "11", "00", "b.bmp", "0"⟩ : SRec)
    (by decide) (by decide) (by decide)

/-! ## Lemmas: which errors each schedule sub-validator can produce -/

theorem validate_schedule_name_cases (n : String) (e : SchedErr)
    (h : validate_schedule_name n = some e) :
    e = SchedErr.nameEmpty ∨ e = SchedErr.nameLong := by
  unfold validate_schedule_name at h
  split at h
  · cases h; exact Or.inl rfl
  · split at h
    · cases h; exact Or.inr rfl
    · cases h

theorem validate_days_cases (s : String) (e : SchedErr)
    (h : validate_days s = some e) :
    e = SchedErr.daysEmpty ∨ (∃ c, e = SchedErr.daysBadChar c) ∨
      e = SchedErr.daysDup := by
  unfold validate_days at h
  split at h
  · cases h; exact Or.inl rfl
  · split at h
    · cases h
      exact Or.inr (Or.inl ⟨_, rfl⟩)
    · split at h
      · cases h; exact Or.inr (Or.inr rfl)
      · cases h

theorem validate_image_cases {α : Type} (eb nf : α) (avail : List String)
    (img : String) (e : α) (h : validate_image eb nf avail img = some e) :
    e = eb ∨ e = nf := by
  unfold validate_image at h
  split at h
  · split at h
    · cases h
    · cases h; exact Or.inl rfl
  · split at h
    · cases h
    · cases h; exact Or.inr rfl

/-! ## Claim C7 -/

/-- C7 counterexample: the claim quantifies over every event whose top line
is 13 characters long, but a 13-character all-whitespace top line trips the
emptiness check (`not text.strip()`), which runs before the length check,
so the length error is not produced alongside the date-in-past error. -/
theorem C7_counterexample :
    String.length "             " = 13 ∧
    EvErr.datePast ∈ (validate_event (2025, 6, 15) ["a.bmp"] "2025-06-14"
        "             " "hi" "a.bmp" "MINT" none none).2 ∧
    EvErr.topLong ∉ (validate_event (2025, 6, 15) ["a.bmp"] "2025-06-14"
        "             " "hi" "a.bmp" "MINT" none none).2 :=
  ⟨by decide, by decide, by decide⟩

/-- C7 amended: event validation collects every field error in one call:
whenever the date validator reports date-in-past and the top line is longer
than 12 characters and not entirely whitespace, both the date-in-past error
and the length error appear in the single returned list, and the success
flag holds exactly when the error list is empty. -/
theorem C7_amended (today : Nat × Nat × Nat) (avail : List String)
    (date top bottom image color : String) (sh eh : Option String)
    (hd : validate_date today date = some EvErr.datePast)
    (hlen : 12 < top.length) (hns : pyStrip top ≠ "") :
    EvErr.datePast ∈ (validate_event today avail date top bottom image color sh eh).2 ∧
    EvErr.topLong ∈ (validate_event today avail date top bottom image color sh eh).2 ∧
    ((validate_event today avail date top bottom image color sh eh).1 = true ↔
      (validate_event today avail date top bottom image color sh eh).2 = []) := by
  have h1 : (top == "") = false := by
    rw [beq_eq_false_iff_ne]
    intro hEq
    rw [hEq] at hlen
    exact absurd hlen (by decide)
  have h2 : (pyStrip top == "") = false := beq_eq_false_iff_ne.mpr hns
  have htop : validate_text EvErr.topEmpty EvErr.topLong top 12 = some EvErr.topLong := by
    unfold validate_text
    rw [h1, h2]
    simp [hlen]
  refine ⟨?_, ?_, ?_⟩
  · simp [validate_event, hd]
  · simp [validate_event, htop]
  · simp only [validate_event]
    exact List.isEmpty_iff

/-- C7 witness: yesterday plus a 13-letter top line produces both errors. -/
theorem C7_amended_witness :
    EvErr.datePast ∈ (validate_event (2025, 6, 15) ["a.bmp"] "2025-06-14"
        "aaaaaaaaaaaaa" "hi" "a.bmp" "MINT" none none).2 ∧
    EvErr.topLong ∈ (validate_event (2025, 6, 15) ["a.bmp"] "2025-06-14"
        "aaaaaaaaaaaaa" "hi" "a.bmp" "MINT" none none).2 ∧
    ((validate_event (2025, 6, 15) ["a.bmp"] "2025-06-14"
        "aaaaaaaaaaaaa" "hi" "a.bmp" "MINT" none none).1 = true ↔
      (validate_event (2025, 6, 15) ["a.bmp"] "2025-06-14"
        "aaaaaaaaaaaaa" "hi" "a.bmp" "MINT" none none).2 = []) :=
  C7_amended (2025, 6, 15) ["a.bmp"] "2025-06-14" "aaaaaaaaaaaaa" "hi" "a.bmp"
    "MINT" none none (by decide) (by decide) (by decide)

/-! ## Claim C10 -/

/-- C10 counterexample: the claim says any name, days, time-format or image
error suppresses the start-before-end error; but the image check runs after
the `if not errors:` gate, so a schedule whose only other defect is a bad
image still gets the range error reported alongside the image error. -/
theorem C10_counterexample :
    SchedErr.startBeforeEnd ∈
      (validate_schedule ["a.bmp"] "X" "1" "09:00" "08:00" "b.bmp").2 ∧
    SchedErr.imageNotFound ∈
      (validate_schedule ["a.bmp"] "X" "1" "09:00" "08:00" "b.bmp").2 :=
  ⟨by decide, by decide⟩

/-- C10 amended: the start-before-end check is suppressed exactly by the
errors recorded before the gate — name, days, or either time-format error;
whenever at least one of those four checks fails, the returned list never
contains the range error (an image error alone does not suppress it). -/
theorem C10_amended (avail : List String) (name days st et image : String)
    (h : validate_schedule_name name ≠ none ∨ validate_days days ≠ none ∨
      validate_time_format st = false ∨ validate_time_format et = false) :
    SchedErr.startBeforeEnd ∉ (validate_schedule avail name days st et image).2 := by
  intro hmem
  simp only [validate_schedule, List.mem_append] at hmem
  rcases hmem with ((((hm | hm) | hm) | hm) | hm) | hm
  · cases hv : validate_schedule_name name with
    | none => rw [hv] at hm; simp at hm
    | some e =>
      rw [hv] at hm
      simp at hm
      rcases validate_schedule_name_cases name e hv with h' | h' <;>
        (rw [h'] at hm; exact SchedErr.noConfusion hm)
  · cases hv : validate_days days with
    | none => rw [hv] at hm; simp at hm
    | some e =>
      rw [hv] at hm
      simp at hm
      rcases validate_days_cases days e hv with h' | ⟨c, h'⟩ | h' <;>
        (rw [h'] at hm; exact SchedErr.noConfusion hm)
  · split at hm <;> simp at hm
  · split at hm <;> simp at hm
  · by_cases hempty : ((validate_schedule_name name).toList ++
        (validate_days days).toList ++
        (if validate_time_format st = true then [] else [SchedErr.startTimeBad]) ++
        (if validate_time_format et = true then [] else [SchedErr.endTimeBad])).isEmpty = true
    · rw [if_pos hempty] at hm
      rw [List.isEmpty_eq_true] at hempty
      have hparts := hempty
      rw [List.append_eq_nil, List.append_eq_nil, List.append_eq_nil] at hparts
      obtain ⟨⟨⟨p1, p2⟩, p3⟩, p4⟩ := hparts
      rcases h with h | h | h | h
      · apply h
        cases hv : validate_schedule_name name with
        | none => rfl
        | some e => rw [hv] at p1; cases p1
      · apply h
        cases hv : validate_days days with
        | none => rfl
        | some e => rw [hv] at p2; cases p2
      · rw [h] at p3
        simp at p3
      · rw [h] at p4
        simp at p4
    · rw [if_neg hempty] at hm
      simp at hm
  · cases hv : validate_image SchedErr.imageNotBmp SchedErr.imageNotFound avail image with
    | none => rw [hv] at hm; simp at hm
    | some e =>
      rw [hv] at hm
      simp at hm
      rcases validate_image_cases _ _ avail image e hv with h' | h' <;>
        (rw [h'] at hm; exact SchedErr.noConfusion hm)

/-- C10 witness: an empty name suppresses the range error even though the
start time does not precede the end time. -/
theorem C10_amended_witness :
    SchedErr.startBeforeEnd ∉ (validate_schedule [] "" "1" "09:00" "08:00" "x.bmp").2 :=
  C10_amended [] "" "1" "09:00" "08:00" "x.bmp" (Or.inl (by decide))

end Pantallita
